import Mathlib

/-!
Verification of the partition-and-encoding planner and pipeline orchestrator
of FastK (src/FastK.c, function `main`).

The relevant C code is straight-line integer arithmetic plus two small loops;
it is embedded shallowly below.  C loops are embedded with an explicit fuel
argument so that every definition is structurally recursive and can be
evaluated by the kernel; in each case the fuel supplied at the call site is
proved (or evident) to be sufficient, so the fuel version computes the same
value as the C loop.

Conventions:
  * C `int`/`int64` values that stay non-negative in all relevant runs are
    modelled as `Nat`; values that can go negative (the short-read guard's
    `gsize`) use `Int`, with C's truncating `/` rendered as `Int.tdiv`.
  * `exit (code)` is modelled by returning `Except.error code`; a normal run
    returns `Except.ok` carrying the data the claims are about.
-/

namespace FastK

/-- The while-loop of FastK.c lines 385-387:
`MOD_LEN = 1; while (MOD_LEN < KMER) MOD_LEN <<= 1;`
embedded with fuel (first argument); each iteration doubles `m`, so starting
from `m = 1` with fuel `kmer` the loop always runs to completion. -/
def modLenAux (kmer : Nat) : Nat → Nat → Nat
  | 0, m => m
  | fuel + 1, m => if m < kmer then modLenAux kmer fuel (2 * m) else m

/-- Value `MOD_LEN` as computed by FastK.c lines 385-388: the loop above
followed by one more `MOD_LEN <<= 1`. -/
def MOD_LEN (kmer : Nat) : Nat := 2 * modLenAux kmer kmer 1

/-- Value `MOD_MSK = MOD_LEN - 1` (FastK.c line 389). -/
def MOD_MSK (kmer : Nat) : Nat := MOD_LEN kmer - 1

/-- The for-loop of FastK.c lines 397-399:
`SLEN_BITS = 0; for (val = MAX_SUPER; val > 0; val >>= 1) SLEN_BITS += 1;`
counting iterations, embedded with fuel (first argument).  `val` at least
halves each iteration, so fuel `val` always suffices. -/
def slenBitsAux : Nat → Nat → Nat
  | 0, _ => 0
  | fuel + 1, v => if 0 < v then slenBitsAux fuel (v / 2) + 1 else 0

/-- Value `SLEN_BITS` for a given `MAX_SUPER` (FastK.c lines 397-399). -/
def SLEN_BITS (maxSuper : Nat) : Nat := slenBitsAux maxSuper maxSuper

/-- Value `SLEN_BIT_MASK = (0x1u << SLEN_BITS) - 1` (FastK.c line 400). -/
def SLEN_BIT_MASK (maxSuper : Nat) : Nat := (1 <<< SLEN_BITS maxSuper) - 1

/-- Value `SLEN_BYTES = (SLEN_BITS + 7) >> 3` (FastK.c line 401). -/
def SLEN_BYTES (maxSuper : Nat) : Nat := (SLEN_BITS maxSuper + 7) >>> 3

/-- Value `SMER = MAX_SUPER + KMER - 1` (FastK.c line 395). -/
def SMER (kmer maxSuper : Nat) : Nat := maxSuper + kmer - 1

/-- Value `SMER_BYTES = (SMER*2 + 7) >> 3` (FastK.c line 403). -/
def SMER_BYTES (smer : Nat) : Nat := (smer * 2 + 7) >>> 3

/-- Value `SMER_WORD = SMER_BYTES + SLEN_BYTES` (FastK.c line 404). -/
def SMER_WORD (kmer maxSuper : Nat) : Nat :=
  SMER_BYTES (SMER kmer maxSuper) + SLEN_BYTES maxSuper

/-- Value `KMER_BYTES = (KMER*2 + 7) >> 3` (FastK.c line 359). -/
def KMER_BYTES (kmer : Nat) : Nat := (kmer * 2 + 7) >>> 3

/-- Value `PLEN_BYTES = (SLEN_BITS + 8) >> 3` (FastK.c line 406), as a
function of the bit count. -/
def PLEN_BYTES (slenBits : Nat) : Nat := (slenBits + 8) >>> 3

/-- The byte width the spec prescribes for the profile-segment length field:
`ceil((lengthFieldBits + 8) / 8)`.  (Second definition, written from the
spec's words, for comparison with `PLEN_BYTES` above.) -/
def plenBytesSpec (slenBits : Nat) : Nat := (slenBits + 8 + 7) / 8

/-- Value `NPARTS = (gsize - 1)/SORT_MEMORY + 1` (FastK.c line 368).  `gsize` is the
projected byte volume (non-negative); for `gsize = 0` C's signed arithmetic
gives `(-1)/m + 1 = 0 + 1 = 1` (truncation toward zero) and Nat subtraction
gives `(0 - 1)/m + 1 = 0/m + 1 = 1`, the same value. -/
def NPARTS (gsize sortMemory : Nat) : Nat := (gsize - 1) / sortMemory + 1

/-- The short-read guard of FastK.c lines 362-363:
`gsize = totlen - KMER*nreads; if (gsize < totlen/3) exit`.
True when the run is rejected.  C's truncating signed `/` is `Int.tdiv`. -/
def shortReadGuard (totlen nreads kmer : Int) : Bool :=
  totlen - kmer * nreads < totlen.tdiv 3

/-- Value `nfiles = (NPARTS + 2)*NTHREADS + tid` (FastK.c line 420), where
`tid` is the descriptor number observed for a throwaway file. -/
def nfiles (nparts nthreads tid : Nat) : Nat := (nparts + 2) * nthreads + tid

/-- The four pipeline stages invoked by `main` (FastK.c lines 430-457). -/
inductive Stage where
  | Split
  | Sort
  | MergeTables
  | MergeProfiles
deriving DecidableEq

/-- The stage sequence of a normal (non-DEVELOPER) run, FastK.c lines 430-457:
`Split_Kmers`; `Sorting`; `Merge_Tables` iff `DO_TABLE > 0`;
`Merge_Profiles` iff `DO_PROFILE > 0`. -/
def stageList (doTable doProfile : Nat) : List Stage :=
  Stage.Split :: Stage.Sort ::
    ((if 0 < doTable then [Stage.MergeTables] else []) ++
      (if 0 < doProfile then [Stage.MergeProfiles] else []))

/-- The `-p:<table>` stub read at argument-parsing time, FastK.c lines
210-224: if `fopen` fails (`found = false`) exit 1; read `promer` and
`PRO_THREADS` from the header; if `PRO_THREADS <= 0` exit 1; otherwise
continue with the two header values. -/
def readStub (found : Bool) (promer proThreads : Int) : Except Nat (Int × Int) :=
  if found then
    if proThreads ≤ 0 then Except.error 1
    else Except.ok (promer, proThreads)
  else Except.error 1

/-- Option-derived parameters of `main` that the planner reads. -/
structure Params where
  /-- `KMER` (positive). -/
  kmer : Int
  /-- `NTHREADS`. -/
  nthreads : Nat
  /-- `SORT_MEMORY` in bytes. -/
  sortMemory : Nat
  /-- `DO_TABLE` (0 = no table). -/
  doTable : Nat
  /-- `DO_PROFILE` (0 = no profiles). -/
  doProfile : Nat
  /-- `PRO_THREADS`: hidden-shard count read from a `-p:<table>` stub, 0 when
  no such option was given. -/
  proThreads : Int
  /-- `promer`: the k-mer length stored in the `-p:<table>` stub. -/
  promer : Int

/-- The planning-and-orchestration phase of `main` after argument parsing
(FastK.c lines 273-281, 362-368, 412-428, 430-457), in source order:

1. lines 273-281: if `PRO_THREADS > 0`, exit 1 — with a mismatch message when
   the stub's k-mer length differs from `KMER`, else with the
   "not yet functional" message;
2. lines 362-366: the short-read guard, exit 1 when it fires;
3. line 368: `NPARTS` from the projected byte volume (`projected` stands for
   the value of `gsize*ratio*rsize` at line 367, whose floating-point `ratio`
   factor is not modelled, only the resulting volume);
4. lines 412-428: the file-descriptor guard: exit 1 when `nfiles` exceeds the
   hard limit, otherwise set the soft limit to `nfiles`;
5. lines 430-457: run the stage sequence.

Returns the exit code on abort, otherwise the new soft limit and the stages
run. -/
def fastkMain (p : Params) (totlen nreads : Int) (projected : Nat)
    (tid rlimMax : Nat) : Except Nat (Nat × List Stage) :=
  if 0 < p.proThreads then
    if p.promer ≠ p.kmer then Except.error 1 else Except.error 1
  else if shortReadGuard totlen nreads p.kmer then Except.error 1
  else
    let nparts := NPARTS projected p.sortMemory
    let nf := nfiles nparts p.nthreads tid
    if rlimMax < nf then Except.error 1
    else Except.ok (nf, stageList p.doTable p.doProfile)

/-- A full run given a `-p:<table>` option: the parse-time stub read followed
by the rest of `main`, with `DO_PROFILE = 1` and `promer`/`PRO_THREADS` taken
from the stub header (FastK.c lines 204-225 feeding lines 273-281). -/
def fastkRunP (found : Bool) (promer proThreads : Int) (p : Params)
    (totlen nreads : Int) (projected : Nat) (tid rlimMax : Nat) :
    Except Nat (Nat × List Stage) :=
  match readStub found promer proThreads with
  | Except.error c => Except.error c
  | Except.ok (pm, pt) =>
      fastkMain { p with promer := pm, proThreads := pt, doProfile := 1 }
        totlen nreads projected tid rlimMax

/-! ### Helper lemmas about the two embedded loops -/

/-- Starting from a power of two, `modLenAux` returns a power of two at least
as large. -/
theorem modLenAux_pow2 (kmer : Nat) : ∀ fuel m i, m = 2 ^ i →
    ∃ j, i ≤ j ∧ modLenAux kmer fuel m = 2 ^ j := by
  intro fuel
  induction fuel with
  | zero => intro m i h; exact ⟨i, le_refl i, h⟩
  | succ fuel ih =>
    intro m i h
    by_cases hm : m < kmer
    · rw [modLenAux, if_pos hm]
      obtain ⟨j, hj, hj2⟩ := ih (2 * m) (i + 1) (by rw [h, pow_succ]; ring)
      exact ⟨j, le_trans (Nat.le_succ i) hj, hj2⟩
    · rw [modLenAux, if_neg hm]
      exact ⟨i, le_refl i, h⟩

/-- With sufficient fuel, the loop value ends at least `kmer`. -/
theorem modLenAux_ge (kmer : Nat) : ∀ fuel m, kmer ≤ m * 2 ^ fuel →
    kmer ≤ modLenAux kmer fuel m := by
  intro fuel
  induction fuel with
  | zero => intro m h; simpa [modLenAux] using h
  | succ fuel ih =>
    intro m h
    by_cases hm : m < kmer
    · rw [modLenAux, if_pos hm]
      refine ih (2 * m) ?_
      have h2 : m * 2 ^ (fuel + 1) = 2 * m * 2 ^ fuel := by ring
      rw [h2] at h
      exact h
    · rw [modLenAux, if_neg hm]
      exact Nat.le_of_not_lt hm

/-- The loop either never ran (result is the initial value) or its result is
the double of a value below `kmer`: the source of minimality. -/
theorem modLenAux_min (kmer : Nat) : ∀ fuel m,
    modLenAux kmer fuel m = m ∨ ∃ m', m' < kmer ∧ modLenAux kmer fuel m = 2 * m' := by
  intro fuel
  induction fuel with
  | zero => intro m; exact Or.inl rfl
  | succ fuel ih =>
    intro m
    by_cases hm : m < kmer
    · rw [modLenAux, if_pos hm]
      rcases ih (2 * m) with h | ⟨m', h1, h2⟩
      · exact Or.inr ⟨m, hm, h⟩
      · exact Or.inr ⟨m', h1, h2⟩
    · rw [modLenAux, if_neg hm]
      exact Or.inl rfl

/-- With sufficient fuel, `v < 2 ^ slenBitsAux fuel v`. -/
theorem slenBitsAux_lt : ∀ fuel v, v ≤ fuel → v < 2 ^ slenBitsAux fuel v := by
  intro fuel
  induction fuel with
  | zero => intro v hv; interval_cases v; simp [slenBitsAux]
  | succ fuel ih =>
    intro v hv
    by_cases hv0 : 0 < v
    · rw [slenBitsAux, if_pos hv0]
      have hd : v / 2 ≤ fuel := by
        have := Nat.div_lt_self hv0 (by norm_num : 1 < 2)
        omega
      have := ih (v / 2) hd
      rw [pow_succ]
      exact (Nat.div_lt_iff_lt_mul (by norm_num : 0 < 2)).mp this
    · rw [slenBitsAux, if_neg hv0]
      omega

/-- With sufficient fuel, `slenBitsAux fuel v` is at most any `n` with
`v < 2 ^ n`. -/
theorem slenBitsAux_le : ∀ fuel v n, v ≤ fuel → v < 2 ^ n → slenBitsAux fuel v ≤ n := by
  intro fuel
  induction fuel with
  | zero => intro v n _ _; simp [slenBitsAux]
  | succ fuel ih =>
    intro v n hv hn
    by_cases hv0 : 0 < v
    · rw [slenBitsAux, if_pos hv0]
      obtain ⟨n', rfl⟩ : ∃ n', n = n' + 1 := by
        cases n with
        | zero => simp at hn; omega
        | succ k => exact ⟨k, rfl⟩
      have hd : v / 2 ≤ fuel := by
        have := Nat.div_lt_self hv0 (by norm_num : 1 < 2)
        omega
      have hlt : v / 2 < 2 ^ n' := by
        rw [Nat.div_lt_iff_lt_mul (by norm_num : 0 < 2)]
        rw [pow_succ] at hn
        exact hn
      exact Nat.succ_le_succ (ih (v / 2) n' hd hlt)
    · rw [slenBitsAux, if_neg hv0]
      omega

/-! ### Claim theorems -/

/-- C1, counterexample: the claim says the ring length for K = 40 is the
smallest power of two strictly greater than 40, namely 64; the code computes
128. -/
theorem claim1_counterexample : MOD_LEN 40 = 128 ∧ MOD_LEN 40 ≠ 64 := by decide

/-- C1 (amended): for every K the ring-buffer length `MOD_LEN` is twice the
smallest power of two that is at least K (hence a power of two strictly
greater than K, but not in general the smallest such), `MOD_MSK` is
`MOD_LEN - 1`, and concretely K = 40 and K = 64 both yield ring length
128. -/
theorem claim1_mod_len_corrected (K : Nat) :
    (∃ i, MOD_LEN K = 2 ^ (i + 1) ∧ K ≤ 2 ^ i ∧ ∀ j, K ≤ 2 ^ j → i ≤ j) ∧
    MOD_MSK K = MOD_LEN K - 1 ∧ K < MOD_LEN K ∧
    MOD_LEN 40 = 128 ∧ MOD_LEN 64 = 128 := by
  have hge : K ≤ modLenAux K K 1 := by
    refine modLenAux_ge K K 1 ?_
    have := Nat.lt_two_pow K
    omega
  obtain ⟨j, -, hj⟩ := modLenAux_pow2 K K 1 0 (by norm_num)
  have hKj : K ≤ 2 ^ j := hj ▸ hge
  have hmain : ∀ j', K ≤ 2 ^ j' → j ≤ j' := by
    intro j' hj'
    rcases modLenAux_min K K 1 with h1 | ⟨m', hm', h2⟩
    · -- the loop never ran: the result is 1, so 2^j = 1 and j = 0
      rw [h1] at hj
      have hj0 : j = 0 := by
        by_contra hne
        have : 1 < 2 ^ j := Nat.one_lt_two_pow_iff.mpr hne
        omega
      omega
    · -- the result is 2 * m' with m' < K
      have h2m : 2 * m' = 2 ^ j := by rw [← h2, hj]
      obtain ⟨j'', rfl⟩ : ∃ j'', j = j'' + 1 := by
        cases j with
        | zero => simp at h2m
        | succ k => exact ⟨k, rfl⟩
      have hmj : m' = 2 ^ j'' := by
        have h22 : 2 * m' = 2 * 2 ^ j'' := by rw [h2m, pow_succ]; ring
        omega
      have hlt2 : (2 : Nat) ^ j'' < 2 ^ j' := hmj ▸ lt_of_lt_of_le hm' hj'
      have := (Nat.pow_lt_pow_iff_right (by norm_num : (1 : Nat) < 2)).mp hlt2
      omega
  have hmod : MOD_LEN K = 2 ^ (j + 1) := by
    show 2 * modLenAux K K 1 = 2 ^ (j + 1)
    rw [hj, pow_succ]
    ring
  have hlt : K < MOD_LEN K := by
    have h0 : 0 < 2 ^ j := Nat.pos_pow_of_pos j (by norm_num)
    have h2 : MOD_LEN K = 2 * 2 ^ j := by rw [hmod, pow_succ]; ring
    omega
  exact ⟨⟨j, hmod, hKj, hmain⟩, rfl, hlt, by decide, by decide⟩

/-- C2: for every `maxSuperLen ≥ 1`, `SLEN_BITS` is the smallest n with
`maxSuperLen < 2^n`, `SLEN_BIT_MASK = 2^SLEN_BITS - 1`,
`SLEN_BYTES = ceil(SLEN_BITS/8)`, and the K = 40, `maxSuperLen` = 25 scenario
yields SMER = 64, SLEN_BITS = 5, SLEN_BYTES = 1, SMER_BYTES = 16,
SMER_WORD = 17. -/
theorem claim2_length_field (m : Nat) (hm : 1 ≤ m) :
    m < 2 ^ SLEN_BITS m ∧ (∀ n, m < 2 ^ n → SLEN_BITS m ≤ n) ∧
    SLEN_BIT_MASK m = 2 ^ SLEN_BITS m - 1 ∧
    SLEN_BYTES m = (SLEN_BITS m + 8 - 1) / 8 ∧
    SMER 40 25 = 64 ∧ SLEN_BITS 25 = 5 ∧ SLEN_BYTES 25 = 1 ∧
    SMER_BYTES (SMER 40 25) = 16 ∧ SMER_WORD 40 25 = 17 := by
  refine ⟨slenBitsAux_lt m m le_rfl, fun n hn => slenBitsAux_le m m n le_rfl hn, ?_, ?_,
    by decide, by decide, by decide, by decide, by decide⟩
  · rw [SLEN_BIT_MASK, Nat.shiftLeft_eq, one_mul]
  · rw [SLEN_BYTES, Nat.shiftRight_eq_div_pow]
    norm_num

/-- Witness for C2 at `maxSuperLen` = 25. -/
theorem claim2_witness : SMER_WORD 40 25 = 17 :=
  (claim2_length_field 25 (by decide)).2.2.2.2.2.2.2.2

/-- C3: `NPARTS` is the ceiling of projected bytes over the sort-memory
budget (characterised as the least partition count whose total memory covers
the projected bytes), is always at least 1, and is monotonically
non-increasing in the budget. -/
theorem claim3_nparts_ceiling (g m m1 m2 : Nat) (hg : 1 ≤ g) (hm : 1 ≤ m)
    (hm1 : 1 ≤ m1) (h12 : m1 ≤ m2) :
    g ≤ NPARTS g m * m ∧ (∀ p, g ≤ p * m → NPARTS g m ≤ p) ∧
    (∀ g' m', 1 ≤ NPARTS g' m') ∧ NPARTS g m2 ≤ NPARTS g m1 := by
  refine ⟨?_, ?_, ?_, ?_⟩
  · have h1 : g - 1 < ((g - 1) / m + 1) * m :=
      (Nat.div_lt_iff_lt_mul hm).mp (Nat.lt_succ_self ((g - 1) / m))
    rw [NPARTS]
    omega
  · intro p hp
    rw [NPARTS]
    have h1 : g - 1 < p * m := by omega
    have h2 := (Nat.div_lt_iff_lt_mul hm).mpr h1
    omega
  · intro g' m'
    rw [NPARTS]
    exact Nat.le_add_left 1 ((g' - 1) / m')
  · rw [NPARTS, NPARTS]
    exact Nat.add_le_add_right (Nat.div_le_div_left (c := m1) (b := m2) (a := g - 1) h12 hm1) 1

/-- Witness for C3 at projected bytes 100 and budgets 30 and 60. -/
theorem claim3_witness : NPARTS 100 60 ≤ NPARTS 100 30 :=
  (claim3_nparts_ceiling 100 30 30 60 (by decide) (by decide) (by decide) (by decide)).2.2.2

/-- C4: whenever the sampled statistics satisfy
`totalBases - K * recordCount < totalBases / 3` in a normal run, `main`
exits with code 1 before any pipeline stage runs, and the concrete sample
`totalBases` = 3000000, `recordCount` = 100000, K = 40 trips the guard. -/
theorem claim4_short_read_guard (p : Params) (totlen nreads : Int) (projected : Nat)
    (tid rlimMax : Nat) (hp : p.proThreads ≤ 0)
    (h : shortReadGuard totlen nreads p.kmer = true) :
    fastkMain p totlen nreads projected tid rlimMax = Except.error 1 ∧
    shortReadGuard 3000000 100000 40 = true := by
  have hnp : ¬ 0 < p.proThreads := not_lt.mpr hp
  exact ⟨by simp [fastkMain, hnp, h], by decide⟩

/-- Witness for C4 at the claim's sample. -/
theorem claim4_witness :
    fastkMain ⟨40, 4, 12000000000, 0, 0, 0, 0⟩ 3000000 100000 1000000 3 4096 =
      Except.error 1 :=
  (claim4_short_read_guard ⟨40, 4, 12000000000, 0, 0, 0, 0⟩ 3000000 100000 1000000 3 4096
    (by decide) (by decide)).1

/-- C5: with `requiredFiles = (NPARTS + 2) * NTHREADS + tid`, a run whose
required file count exceeds the hard limit exits with code 1 before Split,
and otherwise the soft limit is set to the required file count and the stages
run. -/
theorem claim5_fd_guard (p : Params) (totlen nreads : Int) (projected : Nat)
    (tid rlimMax : Nat)
    (hp : p.proThreads ≤ 0) (hg : shortReadGuard totlen nreads p.kmer = false) :
    (rlimMax < nfiles (NPARTS projected p.sortMemory) p.nthreads tid →
      fastkMain p totlen nreads projected tid rlimMax = Except.error 1) ∧
    (¬ rlimMax < nfiles (NPARTS projected p.sortMemory) p.nthreads tid →
      fastkMain p totlen nreads projected tid rlimMax =
        Except.ok (nfiles (NPARTS projected p.sortMemory) p.nthreads tid,
          stageList p.doTable p.doProfile)) := by
  have hnp : ¬ 0 < p.proThreads := not_lt.mpr hp
  constructor
  · intro h
    simp [fastkMain, hnp, hg, h]
  · intro h
    simp [fastkMain, hnp, hg, h]

/-- Witness for C5: 10 partitions, 4 threads, baseline descriptor 3, hard
limit 50 < 51 required files. -/
theorem claim5_witness :
    fastkMain ⟨40, 4, 1, 0, 0, 0, 0⟩ 300 1 10 3 50 = Except.error 1 :=
  (claim5_fd_guard ⟨40, 4, 1, 0, 0, 0, 0⟩ 300 1 10 3 50 (by decide) (by decide)).1 (by decide)

/-- C6, counterexample: with 10 partitions, 4 threads, baseline 3, the code
computes (10 + 2) * 4 + 3 = 51 required files, not 43 as the claim states. -/
theorem claim6_counterexample : nfiles 10 4 3 = 51 ∧ nfiles 10 4 3 ≠ 43 := by decide

/-- C6 (amended): with `partitionCount` = 10, `threadCount` = 4,
`reservedBaseline` = 3 and hard limit 40, the required file count is 51,
which exceeds 40, so the run aborts with exit code 1 before the Split stage
starts (no stage is reached). -/
theorem claim6_fd_abort_corrected :
    nfiles 10 4 3 = 51 ∧ 40 < nfiles 10 4 3 ∧ NPARTS 10 1 = 10 ∧
    fastkMain ⟨40, 4, 1, 0, 0, 0, 0⟩ 300 1 10 3 40 = Except.error 1 :=
  ⟨by decide, by decide, by decide, rfl⟩

/-- C7, counterexample: at `lengthFieldBits` = 5 the code reserves
`(5 + 8) >> 3` = 1 byte, while the claimed formula `ceil((5 + 8)/8)` gives
2. -/
theorem claim7_counterexample :
    PLEN_BYTES 5 = 1 ∧ plenBytesSpec 5 = 2 ∧ PLEN_BYTES 5 ≠ plenBytesSpec 5 := by decide

/-- C7 (amended): the byte width reserved for compressed profile-segment
lengths is the floor `(lengthFieldBits + 8) / 8`, equivalently
`lengthFieldBits / 8 + 1`, not the ceiling of `(lengthFieldBits + 8) / 8`. -/
theorem claim7_plen_bytes_corrected (b : Nat) :
    PLEN_BYTES b = (b + 8) / 8 ∧ PLEN_BYTES b = b / 8 + 1 := by
  constructor
  · rw [PLEN_BYTES, Nat.shiftRight_eq_div_pow]
  · rw [PLEN_BYTES, Nat.shiftRight_eq_div_pow]
    norm_num

/-- C8: in a normal run the stage sequence always starts with Split then
Sort in that order, contains MergeTables exactly when a table cutoff was
requested, contains MergeProfiles exactly when profiles were requested, and
is exactly [Split, Sort] when neither was requested. -/
theorem claim8_stage_sequencing (t p : Nat) :
    (stageList t p).take 2 = [Stage.Split, Stage.Sort] ∧
    (Stage.MergeTables ∈ stageList t p ↔ 0 < t) ∧
    (Stage.MergeProfiles ∈ stageList t p ↔ 0 < p) ∧
    stageList 0 0 = [Stage.Split, Stage.Sort] := by
  refine ⟨rfl, ?_, ?_, rfl⟩ <;>
    by_cases ht : 0 < t <;> by_cases hp : 0 < p <;> simp [stageList, ht, hp]

/-- C9: a `-p:<table>` run whose stub was found but stores a k-mer length
different from the requested one, or a non-positive hidden-shard count,
exits with code 1 before any processing. -/
theorem claim9_stub_rejection (found : Bool) (promer proThreads : Int) (p : Params)
    (totlen nreads : Int) (projected : Nat) (tid rlimMax : Nat)
    (hfound : found = true) (h : promer ≠ p.kmer ∨ proThreads ≤ 0) :
    fastkRunP found promer proThreads p totlen nreads projected tid rlimMax =
      Except.error 1 := by
  subst hfound
  by_cases hle : proThreads ≤ 0
  · simp [fastkRunP, readStub, hle]
  · have hpos : 0 < proThreads := lt_of_not_le hle
    simp [fastkRunP, readStub, hle, fastkMain, hpos]

/-- Witness for C9: stub built with k-mer length 30 against a requested
k-mer length of 40. -/
theorem claim9_witness :
    fastkRunP true 30 4 ⟨40, 4, 1, 0, 1, 0, 0⟩ 300 1 10 3 100 = Except.error 1 :=
  claim9_stub_rejection true 30 4 ⟨40, 4, 1, 0, 1, 0, 0⟩ 300 1 10 3 100 rfl
    (Or.inl (by decide))

/-- C10: even a well-formed `-p:<table>` stub (found, positive shard count,
matching k-mer length) makes the run exit with code 1 — the feature is
reported as not functional — so the `-p:<table>` mode never reaches
Split. -/
theorem claim10_ptab_not_functional (promer proThreads : Int) (p : Params)
    (totlen nreads : Int) (projected : Nat) (tid rlimMax : Nat)
    (hpt : 0 < proThreads) (hpm : promer = p.kmer) :
    fastkRunP true promer proThreads p totlen nreads projected tid rlimMax =
      Except.error 1 := by
  have hle : ¬ proThreads ≤ 0 := not_le.mpr hpt
  simp [fastkRunP, readStub, hle, fastkMain, hpt]

/-- Witness for C10: a stub with matching k-mer length 40 and 4 hidden
shards. -/
theorem claim10_witness :
    fastkRunP true 40 4 ⟨40, 4, 1, 0, 1, 0, 0⟩ 300 1 10 3 100 = Except.error 1 :=
  claim10_ptab_not_functional 40 4 ⟨40, 4, 1, 0, 1, 0, 0⟩ 300 1 10 3 100 (by decide)
    (by decide)

end FastK
